import Mathlib

/-!
Shallow embedding of `src/modules/snowflake/sync-connector-lambda/tm_importer.py`,
the IoT TwinMaker entity-import connector.  The importer reads a flat list of
entity records and creates a tree of TwinMaker entities, recursively resolving
parents, memoizing existence checks in two process-wide caches, and polling
created dependencies until they become active.

The embedding is a state-passing interpreter.  Remote service state (which
entities, component types and workspaces exist) is a record of lists of ids;
every remote API call is recorded in an event trace, which the theorems below
inspect for ordering, idempotence and cache properties.  Recursion in
`create_iottwinmaker_entity` is bounded by explicit fuel, because the source
recursion has no termination guarantee on cyclic parent chains.
-/

namespace TmImporter

/-- One input record of the import job (`entity` dict in the source).  Field
names follow the keys read by `tm_importer.py`; `entity_id` is required, all
other fields are optional.  `properties` stands for the opaque property
mapping that is passed through into the component payload. -/
structure Entity where
  entity_id : String
  parent_entity_id : Option String := none
  entity_name : Option String := none
  parent_name : Option String := none
  component_type : Option String := none
  description : Option String := none
  properties : List (String × String) := []
  deriving DecidableEq, Repr

/-- The keyword arguments of a `create_entity` call (the `ntt` dict built at
lines 186-190, or the dict built by `create_root`).  The synthetic root dict
has no `parentEntityId` key, rendered here as `none`. -/
structure Ntt where
  entityId : String
  entityName : Option String := none
  parentEntityId : Option String := none
  description : Option String := none
  workspaceId : String := ""
  deriving DecidableEq, Repr

/-- The component payload built by `populate_assets`: the contents of the
single `attributes` entry of the `components` dict. -/
structure Comps where
  componentTypeId : Option String := none
  properties : List (String × String) := []
  deriving DecidableEq, Repr

/-- Remote API calls issued by the importer, in issue order.  `listComponentTypes`
records the component-type id whose provisioning triggered the list call (the
call itself only carries the workspace id).  The `wait...` events stand for the
`wait_over` polling loops. -/
inductive Event where
  | getEntity (entityId : String)
  | createEntity (ntt : Ntt) (components : Option Comps)
  | waitEntityActive (entityId : String)
  | listComponentTypes (forComponentType : String)
  | createComponentType (componentTypeId : String)
  | waitComponentTypeActive (componentTypeId : String)
  | listWorkspaces
  | createBucket (bucketName : String)
  | waitBucketExists (bucketName : String)
  | createWorkspace (workspaceId : String)
  deriving DecidableEq, Repr

/-- Combined remote-service state and process-wide cache state.  `remote`,
`ctypes_remote` and `workspaces` are the ids existing in the service;
`created_entities` and `created_component_types` are the two module-level
cache dicts of the source (a key list models the key set). -/
structure ImportState where
  remote : List String
  created_entities : List String
  ctypes_remote : List String
  created_component_types : List String
  workspaces : List String
  deriving DecidableEq, Repr

/-- Python truthiness of an optional string: `None` and the empty string are
falsy. -/
def truthyStr : Option String → Bool
  | none => false
  | some s => !s.isEmpty

/-- Embedding of `entity_exists` (lines 125-138).  `getOk` abstracts the
outcome of the `get_entity` API call: `false` means the call raised, for any
reason (NotFound as well as transport or auth failures — the bare `except`
catches everything).  Returns the result, the updated `created_entities`
cache and the emitted events. -/
def entity_exists (getOk : String → Bool) (created_entities : List String)
    (workspace_id entity_id : String) : Bool × List String × List Event :=
  if created_entities.contains entity_id then (true, created_entities, [])
  else if getOk entity_id then
    (true, entity_id :: created_entities, [Event.getEntity entity_id])
  else (false, created_entities, [Event.getEntity entity_id])

/-- Embedding of `create_properties_component` (lines 58-89): ensure the
component type exists and is active, memoizing in `created_component_types`.
The cache is consulted before the falsiness check, as in the source. -/
def create_properties_component (workspace_id : String) (comp_id : Option String)
    (s : ImportState) : ImportState × List Event :=
  match comp_id with
  | none => (s, [])
  | some cid =>
    if s.created_component_types.contains cid then (s, [])
    else if cid.isEmpty then (s, [])
    else if s.ctypes_remote.contains cid then
      ({ s with created_component_types := cid :: s.created_component_types },
        [Event.listComponentTypes cid])
    else
      ({ s with ctypes_remote := cid :: s.ctypes_remote,
                created_component_types := cid :: s.created_component_types },
        [Event.listComponentTypes cid, Event.createComponentType cid,
          Event.waitComponentTypeActive cid])

/-- Embedding of `populate_assets` (lines 112-123): ensure the component type
and build the component payload from the record's properties. -/
def populate_assets (entity : Entity) (comp_id : Option String) (workspace_id : String)
    (s : ImportState) : Comps × ImportState × List Event :=
  let r := create_properties_component workspace_id comp_id s
  ({ componentTypeId := comp_id, properties := entity.properties }, r.1, r.2)

/-- Embedding of `get_parent_from_input` (lines 140-144): first record whose
`entity_id` equals the requested parent id. -/
def get_parent_from_input : List Entity → String → Option Entity
  | [], _ => none
  | e :: rest, parent_id =>
    if parent_id = e.entity_id then some e else get_parent_from_input rest parent_id

/-- Embedding of `create_root` (lines 147-155): the synthetic placeholder
entity dict, with the sentinel name defaulted. -/
def create_root (root_id : String) (root_name : Option String)
    (workspace_id : String) : Ntt :=
  let n := if root_name = some "$ROOT" then some "ROOT" else root_name
  { entityId := root_id, entityName := n, parentEntityId := none,
    description := n, workspaceId := workspace_id }

/-- The `ntt` dict built at lines 186-190 for the record itself, with the
description falling back to the entity name when falsy. -/
def entity_ntt (entity : Entity) (parent_id : String) (workspace_id : String) : Ntt :=
  { entityId := entity.entity_id,
    entityName := entity.entity_name,
    parentEntityId := some parent_id,
    description :=
      if truthyStr entity.description then entity.description else entity.entity_name,
    workspaceId := workspace_id }

/-- Embedding of `create_entity_api` (lines 195-207): issue the create call
(the `comps` argument is always a non-empty dict at every call site of this
program, so the truthy branch is taken whenever it is `some`), then poll the
entity to active when `check_active` is set. -/
def create_entity_api (comps : Option Comps) (ntt : Ntt) (workspace_id : String)
    (check_active : Bool) (s : ImportState) : ImportState × List Event :=
  ({ s with remote := ntt.entityId :: s.remote },
    Event.createEntity ntt comps ::
      if check_active then [Event.waitEntityActive ntt.entityId] else [])

/-- Line 172 of the resolver: when the record's `component_type` is truthy,
provision it and build the record's own payload, otherwise keep the payload
handed in by the caller. -/
def payload_step (entity : Entity) (workspace_id : String) (comps0 : Comps)
    (s : ImportState) : Comps × ImportState × List Event :=
  if truthyStr entity.component_type then
    populate_assets entity entity.component_type workspace_id s
  else (comps0, s, [])

/-- Embedding of `create_iottwinmaker_entity` (lines 158-192), the recursive
resolver.  The fuel argument bounds the recursion depth; the source recursion
is unbounded and loops forever on cyclic parent chains, which here surfaces
as `none` (fuel exhausted). -/
def create_iottwinmaker_entity :
    Nat → List Entity → Entity → String → Comps → Bool → ImportState →
    Option (ImportState × List Event)
  | 0, _, _, _, _, _, _ => none
  | fuel + 1, input_entities, entity, workspace_id, comps0, check_active, s =>
    let r1 := entity_exists (fun i => s.remote.contains i) s.created_entities
      workspace_id entity.entity_id
    let s1 : ImportState := { s with created_entities := r1.2.1 }
    if r1.1 then some (s1, r1.2.2)
    else
      let pa := payload_step entity workspace_id comps0 s1
      match entity.parent_entity_id with
      | some parent_id =>
        let r3 := entity_exists (fun i => pa.2.1.remote.contains i)
          pa.2.1.created_entities workspace_id parent_id
        let s3 : ImportState := { pa.2.1 with created_entities := r3.2.1 }
        if r3.1 then
          let r4 := create_entity_api (some pa.1) (entity_ntt entity parent_id workspace_id)
            workspace_id check_active s3
          some (r4.1, r1.2.2 ++ pa.2.2 ++ r3.2.2 ++ r4.2)
        else
          match get_parent_from_input input_entities parent_id with
          | some parent =>
            match create_iottwinmaker_entity fuel input_entities parent workspace_id
                pa.1 true s3 with
            | none => none
            | some (s4, evR) =>
              let r5 := create_entity_api (some pa.1)
                (entity_ntt entity parent_id workspace_id) workspace_id check_active s4
              some (r5.1, r1.2.2 ++ pa.2.2 ++ r3.2.2 ++ evR ++ r5.2)
          | none =>
            let root := create_root parent_id entity.parent_name workspace_id
            let r4 := create_entity_api (some pa.1) root workspace_id true s3
            let r5 := create_entity_api (some pa.1)
              (entity_ntt entity parent_id workspace_id) workspace_id check_active r4.1
            some (r5.1, r1.2.2 ++ pa.2.2 ++ r3.2.2 ++ r4.2 ++ r5.2)
      | none =>
        let r4 := create_entity_api (some pa.1) (entity_ntt entity "$ROOT" workspace_id)
          workspace_id check_active pa.2.1
        some (r4.1, r1.2.2 ++ pa.2.2 ++ r4.2)

/-- The loop body of `process_records` (lines 215-220), processing the given
suffix of the record list while keeping the full list for parent lookups. -/
def process_records_from (fuel : Nat) (input_entities : List Entity)
    (workspace_id : String) (comp_id : Option String) :
    List Entity → ImportState → Option (ImportState × List Event)
  | [], s => some (s, [])
  | entity :: rest, s =>
    let pa := populate_assets entity comp_id workspace_id s
    match create_iottwinmaker_entity fuel input_entities entity workspace_id pa.1
        false pa.2.1 with
    | none => none
    | some (s2, ev2) =>
      match process_records_from fuel input_entities workspace_id comp_id rest s2 with
      | none => none
      | some (s3, ev3) => some (s3, pa.2.2 ++ ev2 ++ ev3)

/-- Embedding of `process_records` (lines 215-220). -/
def process_records (fuel : Nat) (entities : List Entity) (workspace_id : String)
    (comp_id : Option String) (s : ImportState) : Option (ImportState × List Event) :=
  process_records_from fuel entities workspace_id comp_id entities s

/-- Embedding of `create_workspace` (lines 92-110): list workspaces, return on
a match, otherwise create the backing bucket and the workspace.  The role
argument only affects the created workspace's role binding, not control flow. -/
def create_workspace (workspace_id : String) (iottwinmaker_role_arn : Option String)
    (s : ImportState) : ImportState × List Event :=
  if s.workspaces.contains workspace_id then (s, [Event.listWorkspaces])
  else
    ({ s with workspaces := workspace_id :: s.workspaces },
      [Event.listWorkspaces, Event.createBucket ("iottwinmaker-" ++ workspace_id),
        Event.waitBucketExists ("iottwinmaker-" ++ workspace_id),
        Event.createWorkspace workspace_id])

/-- Embedding of `create_iottwinmaker_entities` (lines 222-225): provision the
workspace, provision the job-level component type, then process all records. -/
def create_iottwinmaker_entities (fuel : Nat) (entities : List Entity)
    (workspace_id : String) (comp_id : Option String)
    (iottwinmaker_role_arn : Option String) (s : ImportState) :
    Option (ImportState × List Event) :=
  let w := create_workspace workspace_id iottwinmaker_role_arn s
  let c := create_properties_component workspace_id comp_id w.1
  match process_records fuel entities workspace_id comp_id c.1 with
  | none => none
  | some (s3, ev3) => some (s3, w.2 ++ c.2 ++ ev3)

/-- State with nothing existing remotely and empty caches. -/
def emptyState : ImportState :=
  { remote := [], created_entities := [], ctypes_remote := [],
    created_component_types := [], workspaces := [] }

/-- The event trace of a possibly fuel-exhausted run. -/
def traceOf : Option (ImportState × List Event) → List Event
  | none => []
  | some p => p.2

/-- The final state of a possibly fuel-exhausted run. -/
def stateOf : Option (ImportState × List Event) → ImportState
  | none => emptyState
  | some p => p.1

/-- Entity ids of the `createEntity` events of a trace, in order. -/
def createdIds (tr : List Event) : List String :=
  tr.filterMap fun ev =>
    match ev with
    | Event.createEntity ntt _ => some ntt.entityId
    | _ => none

/-- Recognize a `createEntity` event. -/
def isCreateEntity : Event → Bool
  | Event.createEntity _ _ => true
  | _ => false

/-- Recognize a `createEntity` event for the given entity id. -/
def isCreateEntityOf (entity_id : String) : Event → Bool
  | Event.createEntity ntt _ => ntt.entityId == entity_id
  | _ => false

/-- Recognize any remote mutation: entity, component-type, workspace or
bucket creation. -/
def isMutation : Event → Bool
  | Event.createEntity _ _ => true
  | Event.createComponentType _ => true
  | Event.createWorkspace _ => true
  | Event.createBucket _ => true
  | _ => false

/-- True when the trace contains a `createEntity` call for the given id whose
immediately following event is the activation wait for that same id. -/
def createWaitedFor : List Event → String → Bool
  | [], _ => false
  | Event.createEntity ntt _ :: rest, entity_id =>
    if ntt.entityId == entity_id then
      match rest with
      | Event.waitEntityActive j :: _ => j == entity_id
      | _ => false
    else createWaitedFor rest entity_id
  | _ :: rest, entity_id => createWaitedFor rest entity_id

/-- Chain-scenario record: `c`, child of `b`. -/
def cRec : Entity := { entity_id := "c", parent_entity_id := some "b" }

/-- Chain-scenario record: `b`, child of `a`. -/
def bRec : Entity := { entity_id := "b", parent_entity_id := some "a" }

/-- Chain-scenario record: `a`, no parent. -/
def aRec : Entity := { entity_id := "a" }

/-- Orphan-parent record: declares its own component type and properties, and
references a parent that is neither in the input set nor remote. -/
def xRec : Entity :=
  { entity_id := "x", parent_entity_id := some "orphan",
    parent_name := some "Orphan Root", component_type := some "ct",
    properties := [("k", "v")] }

/-- The component payload with which line 172 leaves the resolver: the
record's own payload when its `component_type` is truthy, the caller's
payload otherwise. -/
def threaded_comps (entity : Entity) (comps0 : Comps) : Comps :=
  if truthyStr entity.component_type then
    { componentTypeId := entity.component_type, properties := entity.properties }
  else comps0

/-- The component-type provisioning events emitted by line 172: those of
`populate_assets` when the record's `component_type` is truthy, none
otherwise. -/
def comp_provision_events (entity : Entity) (workspace_id : String)
    (s : ImportState) : List Event :=
  if truthyStr entity.component_type then
    (create_properties_component workspace_id entity.component_type s).2
  else []

/-- Invariant relating a state before and after one operation of the importer
that emitted the events `Δ`: the remote id sets only grow, the two caches only
grow (the old cache is a suffix of the new one), cache soundness (every cached
id exists remotely) is preserved, and no event of `Δ` is a remote existence
check or component-type list call for an id that was already cached at the
start. -/
structure StepInv (s s' : ImportState) (Δ : List Event) : Prop where
  remote_mono : ∀ x, x ∈ s.remote → x ∈ s'.remote
  ctypes_remote_mono : ∀ x, x ∈ s.ctypes_remote → x ∈ s'.ctypes_remote
  workspaces_mono : ∀ x, x ∈ s.workspaces → x ∈ s'.workspaces
  cache_suffix : s.created_entities <:+ s'.created_entities
  ctypes_cache_suffix : s.created_component_types <:+ s'.created_component_types
  cache_sound : (∀ x ∈ s.created_entities, x ∈ s.remote) →
    ∀ x ∈ s'.created_entities, x ∈ s'.remote
  ctypes_cache_sound : (∀ x ∈ s.created_component_types, x ∈ s.ctypes_remote) →
    ∀ x ∈ s'.created_component_types, x ∈ s'.ctypes_remote
  no_get_cached : ∀ i ∈ s.created_entities, Event.getEntity i ∉ Δ
  no_list_cached : ∀ i ∈ s.created_component_types, Event.listComponentTypes i ∉ Δ

/-- Acyclicity of the parent chains of an input set, witnessed by a ranking:
whenever a record's parent id resolves to a record of the input set, the
parent's rank is strictly smaller.  A cycle in the parent chains would make
such a ranking impossible, and conversely every cycle-free input set admits
one (number the records by the depth of their parent chain). -/
def ranked (rank : Entity → Nat) (input_entities : List Entity) : Bool :=
  input_entities.all fun e =>
    match e.parent_entity_id with
    | none => true
    | some pid =>
      match get_parent_from_input input_entities pid with
      | none => true
      | some pe => decide (rank pe < rank e)

/-- Ranking for the chain scenario input: `a` below `b` below `c`. -/
def chainRank (e : Entity) : Nat :=
  if e.entity_id = "a" then 0 else if e.entity_id = "b" then 1 else 2

/-- Order check for entity-creation calls: scanning the trace left to right
while accumulating the ids created so far, every `createEntity` call must name
a parent that is the implicit root sentinel, already existed remotely at the
start (`r`), or was created earlier in the trace.  Synthetic-root dicts carry
no parent key (`none`) and attach under the implicit root. -/
def ancestorsFirstFrom (r : List String) : List String → List Event → Bool
  | _, [] => true
  | created, Event.createEntity ntt _ :: rest =>
    (match ntt.parentEntityId with
      | none => true
      | some p => p == "$ROOT" || r.contains p || created.contains p) &&
      ancestorsFirstFrom r (created ++ [ntt.entityId]) rest
  | created, _ :: rest => ancestorsFirstFrom r created rest

/-- State of a fresh process (empty caches) pointed at the same remote
workspace: what a second run of the importer starts from. -/
def freshProcessState (s : ImportState) : ImportState :=
  { remote := s.remote, created_entities := [], ctypes_remote := s.ctypes_remote,
    created_component_types := [], workspaces := s.workspaces }

/-- Reduction of `entity_exists` on a cached id. -/
theorem entity_exists_cached {getOk : String → Bool} {cache : List String}
    {workspace_id entity_id : String} (h : entity_id ∈ cache) :
    entity_exists getOk cache workspace_id entity_id = (true, cache, []) := by
  simp [entity_exists, h]

/-- Reduction of `entity_exists` on an uncached id whose remote get succeeds. -/
theorem entity_exists_remote_hit {getOk : String → Bool} {cache : List String}
    {workspace_id entity_id : String} (h1 : entity_id ∉ cache)
    (h2 : getOk entity_id = true) :
    entity_exists getOk cache workspace_id entity_id =
      (true, entity_id :: cache, [Event.getEntity entity_id]) := by
  simp [entity_exists, h1, h2]

/-- Reduction of `entity_exists` on an uncached id whose remote get raises. -/
theorem entity_exists_not_found {getOk : String → Bool} {cache : List String}
    {workspace_id entity_id : String} (h1 : entity_id ∉ cache)
    (h2 : getOk entity_id = false) :
    entity_exists getOk cache workspace_id entity_id =
      (false, cache, [Event.getEntity entity_id]) := by
  simp [entity_exists, h1, h2]

/-- Component-type provisioning never touches the entity part of the state. -/
theorem create_properties_component_frame (workspace_id : String)
    (comp_id : Option String) (s : ImportState) :
    (create_properties_component workspace_id comp_id s).1.remote = s.remote ∧
    (create_properties_component workspace_id comp_id s).1.created_entities =
      s.created_entities ∧
    (create_properties_component workspace_id comp_id s).1.workspaces = s.workspaces := by
  cases comp_id
  · exact ⟨rfl, rfl, rfl⟩
  · simp only [create_properties_component]
    repeat' split
    all_goals exact ⟨rfl, rfl, rfl⟩

/-- Component-type provisioning emits no entity-creation events. -/
theorem create_properties_component_no_create_entity (workspace_id : String)
    (comp_id : Option String) (s : ImportState) :
    ∀ ev ∈ (create_properties_component workspace_id comp_id s).2,
      isCreateEntity ev = false := by
  cases comp_id
  · intro ev hev; cases hev
  · simp only [create_properties_component]
    repeat' split
    all_goals simp [isCreateEntity]

/-- The line-172 payload step never touches the entity part of the state. -/
theorem payload_step_frame (entity : Entity) (workspace_id : String) (comps0 : Comps)
    (s : ImportState) :
    (payload_step entity workspace_id comps0 s).2.1.remote = s.remote ∧
    (payload_step entity workspace_id comps0 s).2.1.created_entities =
      s.created_entities ∧
    (payload_step entity workspace_id comps0 s).2.1.workspaces = s.workspaces := by
  unfold payload_step
  split
  · exact create_properties_component_frame workspace_id entity.component_type s
  · exact ⟨rfl, rfl, rfl⟩

/-- The line-172 payload step emits no entity-creation events. -/
theorem payload_step_no_create (entity : Entity) (workspace_id : String)
    (comps0 : Comps) (s : ImportState) :
    ∀ ev ∈ (payload_step entity workspace_id comps0 s).2.2,
      isCreateEntity ev = false := by
  unfold payload_step
  split
  · exact create_properties_component_no_create_entity workspace_id
      entity.component_type s
  · intro ev hev; cases hev

/-- A record that `get_parent_from_input` cannot find under a parent id cannot
itself be a member of the input with that id. -/
theorem get_parent_from_input_none_ne {input_entities : List Entity} {parent_id : String}
    (hnone : get_parent_from_input input_entities parent_id = none) :
    ∀ e ∈ input_entities, e.entity_id ≠ parent_id := by
  induction input_entities with
  | nil => intro e he; cases he
  | cons a rest ih =>
    intro e he
    by_cases hq : parent_id = a.entity_id
    · rw [get_parent_from_input, if_pos hq] at hnone; cases hnone
    · rw [get_parent_from_input, if_neg hq] at hnone
      rcases List.mem_cons.mp he with heq | hmem
      · rw [heq]; exact fun hc => hq hc.symm
      · exact ih hnone e hmem

/-- Component-type provisioning at line 172 emits no entity-creation events. -/
theorem comp_provision_events_no_create (entity : Entity) (workspace_id : String)
    (s : ImportState) :
    ∀ ev ∈ comp_provision_events entity workspace_id s, isCreateEntity ev = false := by
  unfold comp_provision_events
  split
  · exact create_properties_component_no_create_entity workspace_id
      entity.component_type s
  · intro ev hev; cases hev

/-- One-step reduction of the resolver in the unresolvable-parent branch: the
record is unknown, its parent id is unknown and has no record in the input
set, so a synthetic root is created (with the threaded component payload) and
waited for, and then the record itself is created. -/
theorem create_iottwinmaker_entity_orphan (fuel : Nat) (input_entities : List Entity)
    (entity : Entity) (workspace_id : String) (comps0 : Comps) (check_active : Bool)
    (s : ImportState) (parent_id : String)
    (hpid : entity.parent_entity_id = some parent_id)
    (h1 : entity.entity_id ∉ s.created_entities)
    (h2 : entity.entity_id ∉ s.remote)
    (h3 : parent_id ∉ s.created_entities)
    (h4 : parent_id ∉ s.remote)
    (hnone : get_parent_from_input input_entities parent_id = none) :
    (create_iottwinmaker_entity (fuel + 1) input_entities entity workspace_id comps0
        check_active s).isSome = true ∧
    traceOf (create_iottwinmaker_entity (fuel + 1) input_entities entity workspace_id
        comps0 check_active s) =
      Event.getEntity entity.entity_id :: comp_provision_events entity workspace_id s ++
        Event.getEntity parent_id ::
        Event.createEntity (create_root parent_id entity.parent_name workspace_id)
          (some (threaded_comps entity comps0)) ::
        Event.waitEntityActive parent_id ::
        Event.createEntity (entity_ntt entity parent_id workspace_id)
          (some (threaded_comps entity comps0)) ::
        (if check_active then [Event.waitEntityActive entity.entity_id] else []) := by
  obtain ⟨hfr, hfc, _⟩ := create_properties_component_frame workspace_id
    entity.component_type s
  by_cases ht : truthyStr entity.component_type = true
  · constructor <;>
      simp [create_iottwinmaker_entity, entity_exists, populate_assets, payload_step,
        hpid, hnone, ht, h1, h2, h3, h4, hfr, hfc, create_entity_api, traceOf,
        create_root, entity_ntt, threaded_comps, comp_provision_events]
  · have ht' : truthyStr entity.component_type = false := by
      revert ht; cases truthyStr entity.component_type <;> simp
    constructor <;>
      simp [create_iottwinmaker_entity, entity_exists, populate_assets, payload_step,
        hpid, hnone, ht', h1, h2, h3, h4, create_entity_api, traceOf, create_root,
        entity_ntt, threaded_comps, comp_provision_events]

/-- The identity operation satisfies the step invariant. -/
theorem StepInv.refl (s : ImportState) : StepInv s s [] where
  remote_mono := fun _ h => h
  ctypes_remote_mono := fun _ h => h
  workspaces_mono := fun _ h => h
  cache_suffix := List.suffix_refl _
  ctypes_cache_suffix := List.suffix_refl _
  cache_sound := fun h => h
  ctypes_cache_sound := fun h => h
  no_get_cached := fun _ _ h => by cases h
  no_list_cached := fun _ _ h => by cases h

/-- The step invariant composes along sequenced operations. -/
theorem StepInv.trans {s s1 s2 : ImportState} {d1 d2 : List Event}
    (h1 : StepInv s s1 d1) (h2 : StepInv s1 s2 d2) : StepInv s s2 (d1 ++ d2) where
  remote_mono := fun x hx => h2.remote_mono x (h1.remote_mono x hx)
  ctypes_remote_mono := fun x hx => h2.ctypes_remote_mono x (h1.ctypes_remote_mono x hx)
  workspaces_mono := fun x hx => h2.workspaces_mono x (h1.workspaces_mono x hx)
  cache_suffix := h1.cache_suffix.trans h2.cache_suffix
  ctypes_cache_suffix := h1.ctypes_cache_suffix.trans h2.ctypes_cache_suffix
  cache_sound := fun h => h2.cache_sound (h1.cache_sound h)
  ctypes_cache_sound := fun h => h2.ctypes_cache_sound (h1.ctypes_cache_sound h)
  no_get_cached := fun i hi hmem => by
    rcases List.mem_append.mp hmem with hm | hm
    · exact h1.no_get_cached i hi hm
    · exact h2.no_get_cached i (h1.cache_suffix.subset hi) hm
  no_list_cached := fun i hi hmem => by
    rcases List.mem_append.mp hmem with hm | hm
    · exact h1.no_list_cached i hi hm
    · exact h2.no_list_cached i (h1.ctypes_cache_suffix.subset hi) hm

/-- Transport of the step invariant along an equality of traces. -/
theorem StepInv.cast {s s' : ImportState} {d1 d2 : List Event} (h : d1 = d2)
    (hinv : StepInv s s' d1) : StepInv s s' d2 := h ▸ hinv

/-- The existence check satisfies the step invariant, for the cache update the
resolver performs with its result. -/
theorem entity_exists_StepInv (s : ImportState) (workspace_id entity_id : String) :
    StepInv s
      { s with created_entities :=
          (entity_exists (fun i => s.remote.contains i) s.created_entities
            workspace_id entity_id).2.1 }
      (entity_exists (fun i => s.remote.contains i) s.created_entities
        workspace_id entity_id).2.2 := by
  by_cases h1 : entity_id ∈ s.created_entities
  · rw [entity_exists_cached h1]
    exact StepInv.refl s
  by_cases h2 : entity_id ∈ s.remote
  · rw [entity_exists_remote_hit h1 (by simpa using h2)]
    refine
      { remote_mono := fun _ h => h
        ctypes_remote_mono := fun _ h => h
        workspaces_mono := fun _ h => h
        cache_suffix := List.suffix_cons _ _
        ctypes_cache_suffix := List.suffix_refl _
        cache_sound := fun h x hx => ?_
        ctypes_cache_sound := fun h => h
        no_get_cached := fun i hi hmem => ?_
        no_list_cached := fun _ _ hmem => by simp at hmem }
    · rcases List.mem_cons.mp hx with rfl | hx
      · exact h2
      · exact h x hx
    · have heq : i = entity_id := by simpa using hmem
      exact h1 (heq ▸ hi)
  · rw [entity_exists_not_found h1 (by simpa using h2)]
    refine
      { remote_mono := fun _ h => h
        ctypes_remote_mono := fun _ h => h
        workspaces_mono := fun _ h => h
        cache_suffix := List.suffix_refl _
        ctypes_cache_suffix := List.suffix_refl _
        cache_sound := fun h => h
        ctypes_cache_sound := fun h => h
        no_get_cached := fun i hi hmem => ?_
        no_list_cached := fun _ _ hmem => by simp at hmem }
    have heq : i = entity_id := by simpa using hmem
    exact h1 (heq ▸ hi)

/-- Component-type provisioning satisfies the step invariant. -/
theorem create_properties_component_StepInv (workspace_id : String)
    (comp_id : Option String) (s : ImportState) :
    StepInv s (create_properties_component workspace_id comp_id s).1
      (create_properties_component workspace_id comp_id s).2 := by
  match comp_id with
  | none => exact StepInv.refl s
  | some cid =>
    by_cases h1 : s.created_component_types.contains cid
    · rw [create_properties_component]
      simp only [h1, if_true]
      exact StepInv.refl s
    by_cases h2 : cid.isEmpty
    · rw [create_properties_component]
      simp only [h1, h2, if_false, if_true, Bool.false_eq_true]
      exact StepInv.refl s
    have h1' : cid ∉ s.created_component_types := by simpa using h1
    by_cases h3 : s.ctypes_remote.contains cid
    · rw [create_properties_component]
      simp only [h1, h2, h3, if_true, if_false, Bool.false_eq_true]
      refine
        { remote_mono := fun _ h => h
          ctypes_remote_mono := fun _ h => h
          workspaces_mono := fun _ h => h
          cache_suffix := List.suffix_refl _
          ctypes_cache_suffix := List.suffix_cons _ _
          cache_sound := fun h => h
          ctypes_cache_sound := fun h x hx => ?_
          no_get_cached := fun _ _ hmem => by simp at hmem
          no_list_cached := fun i hi hmem => ?_ }
      · rcases List.mem_cons.mp hx with rfl | hx
        · simpa using h3
        · exact h x hx
      · have heq : i = cid := by simpa using hmem
        exact h1' (heq ▸ hi)
    · rw [create_properties_component]
      simp only [h1, h2, h3, if_false, Bool.false_eq_true]
      refine
        { remote_mono := fun _ h => h
          ctypes_remote_mono := fun x h => List.mem_cons_of_mem _ h
          workspaces_mono := fun _ h => h
          cache_suffix := List.suffix_refl _
          ctypes_cache_suffix := List.suffix_cons _ _
          cache_sound := fun h => h
          ctypes_cache_sound := fun h x hx => ?_
          no_get_cached := fun _ _ hmem => by simp at hmem
          no_list_cached := fun i hi hmem => ?_ }
      · rcases List.mem_cons.mp hx with rfl | hx
        · exact List.mem_cons_self _ _
        · exact List.mem_cons_of_mem _ (h x hx)
      · have heq : i = cid := by simpa using hmem
        exact h1' (heq ▸ hi)

/-- Entity creation satisfies the step invariant: the created id joins the
remote set and no existence-check or list events are emitted. -/
theorem create_entity_api_StepInv (comps : Option Comps) (ntt : Ntt)
    (workspace_id : String) (check_active : Bool) (s : ImportState) :
    StepInv s (create_entity_api comps ntt workspace_id check_active s).1
      (create_entity_api comps ntt workspace_id check_active s).2 := by
  refine
    { remote_mono := fun x h => List.mem_cons_of_mem _ h
      ctypes_remote_mono := fun _ h => h
      workspaces_mono := fun _ h => h
      cache_suffix := List.suffix_refl _
      ctypes_cache_suffix := List.suffix_refl _
      cache_sound := fun h x hx => List.mem_cons_of_mem _ (h x hx)
      ctypes_cache_sound := fun h => h
      no_get_cached := fun _ _ hmem => ?_
      no_list_cached := fun _ _ hmem => ?_ } <;>
    · cases check_active <;> simp [create_entity_api] at hmem

/-- Payload building satisfies the step invariant (it only provisions the
component type). -/
theorem populate_assets_StepInv (entity : Entity) (comp_id : Option String)
    (workspace_id : String) (s : ImportState) :
    StepInv s (populate_assets entity comp_id workspace_id s).2.1
      (populate_assets entity comp_id workspace_id s).2.2 :=
  create_properties_component_StepInv workspace_id comp_id s

/-- The line-172 payload step satisfies the step invariant. -/
theorem payload_step_StepInv (entity : Entity) (workspace_id : String)
    (comps0 : Comps) (s : ImportState) :
    StepInv s (payload_step entity workspace_id comps0 s).2.1
      (payload_step entity workspace_id comps0 s).2.2 := by
  unfold payload_step
  split
  · exact populate_assets_StepInv _ _ _ _
  · exact StepInv.refl s

/-- The recursive resolver satisfies the step invariant. -/
theorem create_iottwinmaker_entity_StepInv :
    ∀ (fuel : Nat) (input_entities : List Entity) (entity : Entity)
      (workspace_id : String) (comps0 : Comps) (check_active : Bool)
      (s : ImportState) (p : ImportState × List Event),
      create_iottwinmaker_entity fuel input_entities entity workspace_id comps0
        check_active s = some p →
      StepInv s p.1 p.2 := by
  intro fuel
  induction fuel with
  | zero => intro _ _ _ _ _ _ p h; cases h
  | succ n ih =>
    intro input_entities entity workspace_id comps0 check_active s p h
    rcases hn : entity.parent_entity_id with _ | parent_id <;>
      simp only [create_iottwinmaker_entity, hn] at h <;>
      repeat' split at h
    all_goals first
      | exact Option.noConfusion h
      | (injection h with h'; subst h')
    all_goals first
      | exact entity_exists_StepInv _ _ _
      | exact .trans (.trans (entity_exists_StepInv _ _ _)
            (payload_step_StepInv _ _ _ _))
          (create_entity_api_StepInv _ _ _ _ _)
      | exact .trans (.trans (.trans (entity_exists_StepInv _ _ _)
              (payload_step_StepInv _ _ _ _))
            (entity_exists_StepInv _ _ _))
          (create_entity_api_StepInv _ _ _ _ _)
      | exact .trans (.trans (.trans (.trans (entity_exists_StepInv _ _ _)
                (payload_step_StepInv _ _ _ _))
              (entity_exists_StepInv _ _ _))
            (create_entity_api_StepInv _ _ _ _ _))
          (create_entity_api_StepInv _ _ _ _ _)
      | (rename_i s4 evR heq
         exact .trans (.trans (.trans (.trans (entity_exists_StepInv _ _ _)
                 (payload_step_StepInv _ _ _ _))
               (entity_exists_StepInv _ _ _))
             (ih _ _ _ _ _ _ _ heq))
           (create_entity_api_StepInv _ _ _ _ _))

/-- The record-processing loop satisfies the step invariant. -/
theorem process_records_from_StepInv (fuel : Nat) (input_entities : List Entity)
    (workspace_id : String) (comp_id : Option String) :
    ∀ (todo : List Entity) (s : ImportState) (p : ImportState × List Event),
      process_records_from fuel input_entities workspace_id comp_id todo s = some p →
      StepInv s p.1 p.2 := by
  intro todo
  induction todo with
  | nil =>
    intro s p h
    injection h with h'
    subst h'
    exact StepInv.refl s
  | cons e rest ih =>
    intro s p h
    simp only [process_records_from] at h
    split at h
    · exact Option.noConfusion h
    rename_i s2 ev2 heq1
    split at h
    · exact Option.noConfusion h
    rename_i s3 ev3 heq2
    injection h with h'
    subst h'
    exact .trans (.trans (populate_assets_StepInv _ _ _ _)
      (create_iottwinmaker_entity_StepInv _ _ _ _ _ _ _ _ heq1)) (ih _ _ heq2)

/-- Workspace provisioning satisfies the step invariant. -/
theorem create_workspace_StepInv (workspace_id : String)
    (iottwinmaker_role_arn : Option String) (s : ImportState) :
    StepInv s (create_workspace workspace_id iottwinmaker_role_arn s).1
      (create_workspace workspace_id iottwinmaker_role_arn s).2 := by
  by_cases hw : s.workspaces.contains workspace_id <;>
    rw [create_workspace] <;>
    simp only [hw, if_true, if_false, Bool.false_eq_true] <;>
    refine
      { remote_mono := fun _ h => h
        ctypes_remote_mono := fun _ h => h
        workspaces_mono := fun x h => ?_
        cache_suffix := List.suffix_refl _
        ctypes_cache_suffix := List.suffix_refl _
        cache_sound := fun h => h
        ctypes_cache_sound := fun h => h
        no_get_cached := fun _ _ hmem => by simp at hmem
        no_list_cached := fun _ _ hmem => by simp at hmem }
  · exact h
  · exact List.mem_cons_of_mem _ h

/-- The whole import run satisfies the step invariant. -/
theorem create_iottwinmaker_entities_StepInv (fuel : Nat) (entities : List Entity)
    (workspace_id : String) (comp_id : Option String)
    (iottwinmaker_role_arn : Option String) (s : ImportState)
    (p : ImportState × List Event)
    (h : create_iottwinmaker_entities fuel entities workspace_id comp_id
      iottwinmaker_role_arn s = some p) :
    StepInv s p.1 p.2 := by
  simp only [create_iottwinmaker_entities] at h
  split at h
  · exact Option.noConfusion h
  rename_i s3 ev3 heq
  injection h with h'
  subst h'
  exact .trans (.trans (create_workspace_StepInv _ _ _)
      (create_properties_component_StepInv _ _ _))
    (process_records_from_StepInv _ _ _ _ _ _ _ heq)

/-- An event that is not an entity creation is not an entity creation for any
particular id. -/
theorem isCreateEntityOf_eq_false {ev : Event} (i : String)
    (h : isCreateEntity ev = false) : isCreateEntityOf i ev = false := by
  cases ev <;> simp_all [isCreateEntity, isCreateEntityOf]

/-- Claim C6: a record whose parent id has no matching record in the input set
and is unknown remotely gets exactly one synthetic placeholder, created under
the parent id itself and immediately waited for, before the record's own
creation call — the trace equation places the placeholder's creation and wait
strictly before the dependent creation, the third conjunct shows nothing is
created before the placeholder, and the count shows the placeholder is created
exactly once. -/
theorem missing_parent_placeholder_created_once
    (fuel : Nat) (input_entities : List Entity) (entity : Entity)
    (workspace_id : String) (comps0 : Comps) (check_active : Bool)
    (s : ImportState) (parent_id : String)
    (hmem : entity ∈ input_entities)
    (hpid : entity.parent_entity_id = some parent_id)
    (h1 : entity.entity_id ∉ s.created_entities)
    (h2 : entity.entity_id ∉ s.remote)
    (h3 : parent_id ∉ s.created_entities)
    (h4 : parent_id ∉ s.remote)
    (hnone : get_parent_from_input input_entities parent_id = none) :
    (create_iottwinmaker_entity (fuel + 1) input_entities entity workspace_id comps0
        check_active s).isSome = true ∧
    traceOf (create_iottwinmaker_entity (fuel + 1) input_entities entity workspace_id
        comps0 check_active s) =
      Event.getEntity entity.entity_id :: comp_provision_events entity workspace_id s ++
        Event.getEntity parent_id ::
        Event.createEntity (create_root parent_id entity.parent_name workspace_id)
          (some (threaded_comps entity comps0)) ::
        Event.waitEntityActive parent_id ::
        Event.createEntity (entity_ntt entity parent_id workspace_id)
          (some (threaded_comps entity comps0)) ::
        (if check_active then [Event.waitEntityActive entity.entity_id] else []) ∧
    (∀ ev ∈ Event.getEntity entity.entity_id ::
        comp_provision_events entity workspace_id s ++ [Event.getEntity parent_id],
      isCreateEntity ev = false) ∧
    (traceOf (create_iottwinmaker_entity (fuel + 1) input_entities entity workspace_id
        comps0 check_active s)).countP (isCreateEntityOf parent_id) = 1 := by
  obtain ⟨hsome, htr⟩ := create_iottwinmaker_entity_orphan fuel input_entities entity
    workspace_id comps0 check_active s parent_id hpid h1 h2 h3 h4 hnone
  have hne : entity.entity_id ≠ parent_id :=
    get_parent_from_input_none_ne hnone entity hmem
  refine ⟨hsome, htr, ?_, ?_⟩
  · intro ev hev
    rcases List.mem_cons.mp hev with heq | hev
    · rw [heq]; rfl
    rcases List.mem_append.mp hev with hev | hev
    · exact comp_provision_events_no_create entity workspace_id s ev hev
    · rcases List.mem_singleton.mp hev with rfl; rfl
  · rw [htr]
    have hz : (comp_provision_events entity workspace_id s).countP
        (isCreateEntityOf parent_id) = 0 :=
      List.countP_eq_zero.mpr fun ev hev => by
        simp [isCreateEntityOf_eq_false parent_id
          (comp_provision_events_no_create entity workspace_id s ev hev)]
    cases check_active <;>
      simp [List.countP_cons, List.countP_append, hz, isCreateEntityOf, create_root,
        entity_ntt, hne]

/-- Witness for claim C6: record `x` with unresolvable parent `orphan`. -/
theorem missing_parent_placeholder_created_once_witness :
    (traceOf (create_iottwinmaker_entity 1 [xRec] xRec "ws"
        { componentTypeId := none, properties := [] } false emptyState)).countP
      (isCreateEntityOf "orphan") = 1 :=
  (missing_parent_placeholder_created_once 0 [xRec] xRec "ws"
    { componentTypeId := none, properties := [] } false emptyState "orphan"
    (by decide) rfl (by decide) (by decide) (by decide) (by decide) rfl).2.2.2

/-- Amended claim C1: when a record declares a `component_type`, the payload
built for it is attached to the record's own creation call, but — contrary to
the original claim — it is also attached to the creation call of an ancestor
placeholder: in the unresolvable-parent branch the synthetic root is created
with the dependent record's payload. -/
theorem component_payload_on_record_and_placeholder
    (fuel : Nat) (input_entities : List Entity) (entity : Entity)
    (workspace_id : String) (comps0 : Comps) (check_active : Bool)
    (s : ImportState) (parent_id : String)
    (hpid : entity.parent_entity_id = some parent_id)
    (h1 : entity.entity_id ∉ s.created_entities)
    (h2 : entity.entity_id ∉ s.remote)
    (h3 : parent_id ∉ s.created_entities)
    (h4 : parent_id ∉ s.remote)
    (hnone : get_parent_from_input input_entities parent_id = none)
    (hct : truthyStr entity.component_type = true) :
    (create_iottwinmaker_entity (fuel + 1) input_entities entity workspace_id comps0
        check_active s).isSome = true ∧
    Event.createEntity (entity_ntt entity parent_id workspace_id)
        (some { componentTypeId := entity.component_type,
                properties := entity.properties }) ∈
      traceOf (create_iottwinmaker_entity (fuel + 1) input_entities entity workspace_id
        comps0 check_active s) ∧
    Event.createEntity (create_root parent_id entity.parent_name workspace_id)
        (some { componentTypeId := entity.component_type,
                properties := entity.properties }) ∈
      traceOf (create_iottwinmaker_entity (fuel + 1) input_entities entity workspace_id
        comps0 check_active s) := by
  obtain ⟨hsome, htr⟩ := create_iottwinmaker_entity_orphan fuel input_entities entity
    workspace_id comps0 check_active s parent_id hpid h1 h2 h3 h4 hnone
  refine ⟨hsome, ?_, ?_⟩ <;> rw [htr] <;> simp [threaded_comps, hct]

/-- Witness for the amended claim C1, at the same concrete orphan input as the
counterexample. -/
theorem component_payload_on_record_and_placeholder_witness :
    Event.createEntity (create_root "orphan" xRec.parent_name "ws")
        (some { componentTypeId := xRec.component_type,
                properties := xRec.properties }) ∈
      traceOf (create_iottwinmaker_entity 1 [xRec] xRec "ws"
        { componentTypeId := none, properties := [] } true emptyState) :=
  (component_payload_on_record_and_placeholder 0 [xRec] xRec "ws"
    { componentTypeId := none, properties := [] } true emptyState "orphan"
    rfl (by decide) (by decide) (by decide) (by decide) rfl rfl).2.2

/-- Claim C7: a parent reference using the sentinel name leads, through
`create_root`, to a synthetic root whose displayed name and description are
the literal `ROOT` instead of the sentinel. -/
theorem create_root_defaults_sentinel_name (root_id workspace_id : String) :
    create_root root_id (some "$ROOT") workspace_id =
      { entityId := root_id, entityName := some "ROOT", parentEntityId := none,
        description := some "ROOT", workspaceId := workspace_id } := rfl

/-- Claim C4: when the id is not cached and the remote `get_entity` call
raises — for any reason, transport and auth failures included, since the bare
`except` catches everything — `entity_exists` returns `false`, leaves the
cache unchanged, and issues exactly the one failed get call. -/
theorem entity_exists_error_treated_as_absent (getOk : String → Bool)
    (created_entities : List String) (workspace_id entity_id : String)
    (hmiss : created_entities.contains entity_id = false)
    (herr : getOk entity_id = false) :
    entity_exists getOk created_entities workspace_id entity_id =
      (false, created_entities, [Event.getEntity entity_id]) := by
  have hm : entity_id ∉ created_entities := by simpa using hmiss
  simp [entity_exists, hm, herr]

/-- Witness for claim C4 at a concrete input. -/
theorem entity_exists_error_treated_as_absent_witness :
    ([] : List String).contains "e1" = false ∧
    entity_exists (fun _ => false) [] "w" "e1" = (false, [], [Event.getEntity "e1"]) :=
  ⟨rfl, entity_exists_error_treated_as_absent (fun _ => false) [] "w" "e1" rfl rfl⟩

/-- Claim C10: the entity cache is written only by a successful remote get.
`create_entity_api` leaves the cache untouched; `entity_exists` extends it
exactly when the uncached get succeeds; and whenever the id is not cached the
remote get call is issued afresh. -/
theorem cache_written_only_by_successful_get (comps : Option Comps) (ntt : Ntt)
    (workspace_id : String) (check_active : Bool) (s : ImportState)
    (getOk : String → Bool) (cache : List String) (entity_id : String) :
    (create_entity_api comps ntt workspace_id check_active s).1.created_entities =
      s.created_entities ∧
    (entity_exists getOk cache workspace_id entity_id).2.1 =
      (if cache.contains entity_id then cache
       else if getOk entity_id then entity_id :: cache else cache) ∧
    (entity_exists getOk cache workspace_id entity_id).2.2 =
      (if cache.contains entity_id then [] else [Event.getEntity entity_id]) := by
  refine ⟨rfl, ?_, ?_⟩ <;>
    · by_cases h1 : entity_id ∈ cache <;> by_cases h2 : getOk entity_id <;>
        simp [entity_exists, h1, h2]

/-- Claim C8: on the chain input `[c parented to b, b parented to a, a]` with
nothing existing remotely, processing (which starts from `c`) creates `a`,
then `b`, then `c`; the creations of `a` and `b` are each immediately followed
by their activation wait, and `c`'s creation is not waited for. -/
theorem chain_scenario_order_and_waits :
    createdIds (traceOf (process_records 5 [cRec, bRec, aRec] "ws" none emptyState)) =
      ["a", "b", "c"] ∧
    createWaitedFor (traceOf (process_records 5 [cRec, bRec, aRec] "ws" none emptyState))
      "a" = true ∧
    createWaitedFor (traceOf (process_records 5 [cRec, bRec, aRec] "ws" none emptyState))
      "b" = true ∧
    createWaitedFor (traceOf (process_records 5 [cRec, bRec, aRec] "ws" none emptyState))
      "c" = false := by
  refine ⟨?_, ?_, ?_, ?_⟩ <;> rfl

/-- A successful parent lookup returns a member of the input list. -/
theorem get_parent_from_input_mem {input_entities : List Entity} {parent_id : String}
    {e : Entity} (h : get_parent_from_input input_entities parent_id = some e) :
    e ∈ input_entities := by
  induction input_entities with
  | nil => cases h
  | cons a rest ih =>
    rw [get_parent_from_input] at h
    by_cases hq : parent_id = a.entity_id
    · rw [if_pos hq] at h
      exact (Option.some_injective _ h) ▸ List.mem_cons_self a rest
    · rw [if_neg hq] at h
      exact List.mem_cons_of_mem a (ih h)

/-- Inversion of a fuel-exhausted resolver run: the only way the resolver can
fail is that the recursive call on a parent record found in the input set
failed with one unit of fuel less. -/
theorem create_iottwinmaker_entity_none_inversion
    {n : Nat} {input_entities : List Entity} {entity : Entity} {workspace_id : String}
    {comps0 : Comps} {check_active : Bool} {s : ImportState}
    (h : create_iottwinmaker_entity (n + 1) input_entities entity workspace_id comps0
      check_active s = none) :
    ∃ parent_id parent C S,
      entity.parent_entity_id = some parent_id ∧
      get_parent_from_input input_entities parent_id = some parent ∧
      create_iottwinmaker_entity n input_entities parent workspace_id C true
        S = none := by
  rcases hn : entity.parent_entity_id with _ | parent_id
  · simp only [create_iottwinmaker_entity, hn] at h
    split at h <;> exact Option.noConfusion h
  · simp only [create_iottwinmaker_entity, hn] at h
    split at h
    · exact Option.noConfusion h
    rcases hgp : get_parent_from_input input_entities parent_id with _ | parent
    all_goals simp only [hgp] at h
    · repeat' split at h
      all_goals exact Option.noConfusion h
    · repeat' split at h
      all_goals
        first
          | exact Option.noConfusion h
          | (rename_i heq; exact ⟨parent_id, parent, _, _, rfl, hgp, heq⟩)

/-- Claim C5: on an input set whose parent chains are cycle-free (witnessed by
a ranking), the recursive resolver terminates — any fuel beyond the record's
rank suffices, so the fuel bound is never the limiting factor and the
recursion, which descends only through `get_parent_from_input` lookups in the
finite input set, returns. -/
theorem create_iottwinmaker_entity_terminates
    (rank : Entity → Nat) (input_entities : List Entity)
    (hrk : ranked rank input_entities = true) :
    ∀ (fuel : Nat) (entity : Entity) (workspace_id : String) (comps0 : Comps)
      (check_active : Bool) (s : ImportState),
      entity ∈ input_entities → rank entity < fuel →
      (create_iottwinmaker_entity fuel input_entities entity workspace_id comps0
        check_active s).isSome = true := by
  intro fuel
  induction fuel with
  | zero =>
    intro entity _ _ _ _ hmem hf
    exact absurd hf (Nat.not_lt_zero _)
  | succ n ih =>
    intro entity workspace_id comps0 check_active s hmem hf
    by_contra hno
    obtain ⟨parent_id, parent, C, S, hpid, hgp, hnone⟩ :=
      create_iottwinmaker_entity_none_inversion
        (Option.not_isSome_iff_eq_none.mp fun hs => hno hs)
    have hall := List.all_eq_true.mp hrk entity hmem
    rw [hpid] at hall
    simp only [hgp] at hall
    have hrec := ih parent workspace_id C true S (get_parent_from_input_mem hgp)
      (Nat.lt_of_lt_of_le (of_decide_eq_true hall) (Nat.lt_succ_iff.mp hf))
    rw [hnone] at hrec
    exact Bool.noConfusion hrec

/-- Witness for claim C5: the chain input is cycle-free under `chainRank` and
the resolver returns on it with fuel 3. -/
theorem create_iottwinmaker_entity_terminates_witness :
    (create_iottwinmaker_entity 3 [cRec, bRec, aRec] cRec "ws"
      { componentTypeId := none, properties := [] } false emptyState).isSome = true :=
  create_iottwinmaker_entity_terminates chainRank [cRec, bRec, aRec] (by decide)
    3 cRec "ws" { componentTypeId := none, properties := [] } false emptyState
    (by decide) (by decide)

/-- Counterexample to claim C1 as stated: on input `[xRec]` the component
payload built for record `x` (component type `ct` with `x`'s properties) is
attached not only to `x`'s own creation call but also to the creation call of
the ancestor placeholder `orphan` synthesized while resolving `x`'s parent —
the second conjunct exhibits a creation call for an entity other than `x`
carrying `x`'s payload. -/
theorem component_payload_reaches_ancestor :
    traceOf (process_records 2 [xRec] "ws" none emptyState) =
      [Event.getEntity "x",
        Event.listComponentTypes "ct", Event.createComponentType "ct",
        Event.waitComponentTypeActive "ct",
        Event.getEntity "orphan",
        Event.createEntity
          { entityId := "orphan", entityName := some "Orphan Root",
            parentEntityId := none, description := some "Orphan Root",
            workspaceId := "ws" }
          (some { componentTypeId := some "ct", properties := [("k", "v")] }),
        Event.waitEntityActive "orphan",
        Event.createEntity
          { entityId := "x", entityName := none, parentEntityId := some "orphan",
            description := none, workspaceId := "ws" }
          (some { componentTypeId := some "ct", properties := [("k", "v")] })] ∧
    (traceOf (process_records 2 [xRec] "ws" none emptyState)).any
      (fun ev =>
        match ev with
        | Event.createEntity ntt (some c) =>
          ntt.entityId != xRec.entity_id &&
            c == { componentTypeId := xRec.component_type,
                   properties := xRec.properties }
        | _ => false) = true := by
  exact ⟨rfl, rfl⟩


theorem ancestorsFirstFrom_no_create (r : List String) :
    ∀ (tr : List Event), (∀ ev ∈ tr, isCreateEntity ev = false) →
      ∀ created, ancestorsFirstFrom r created tr = true := by
  intro tr
  induction tr with
  | nil => intro _ _; rfl
  | cons ev rest ih =>
    intro h created
    have hr : ∀ e ∈ rest, isCreateEntity e = false :=
      fun e he => h e (List.mem_cons_of_mem _ he)
    cases ev
    case createEntity ntt c =>
      exact absurd (h _ (List.mem_cons_self _ _)) (by simp [isCreateEntity])
    all_goals exact ih hr created

theorem createdIds_no_create :
    ∀ (tr : List Event), (∀ ev ∈ tr, isCreateEntity ev = false) →
      createdIds tr = [] := by
  intro tr
  induction tr with
  | nil => intro _; rfl
  | cons ev rest ih =>
    intro h
    have hr : ∀ e ∈ rest, isCreateEntity e = false :=
      fun e he => h e (List.mem_cons_of_mem _ he)
    cases ev
    case createEntity ntt c =>
      exact absurd (h _ (List.mem_cons_self _ _)) (by simp [isCreateEntity])
    all_goals simpa [createdIds] using ih hr

theorem createdIds_append (a b : List Event) :
    createdIds (a ++ b) = createdIds a ++ createdIds b :=
  List.filterMap_append a b _

theorem ancestorsFirstFrom_append (r : List String) :
    ∀ (a b : List Event) (created : List String),
      ancestorsFirstFrom r created (a ++ b) =
        (ancestorsFirstFrom r created a &&
          ancestorsFirstFrom r (created ++ createdIds a) b) := by
  intro a
  induction a with
  | nil => intro b created; simp [ancestorsFirstFrom, createdIds]
  | cons ev rest ih =>
    intro b created
    cases ev
    case createEntity ntt c =>
      simp only [List.cons_append, ancestorsFirstFrom, List.append_eq]
      rw [ih]
      simp [createdIds, Bool.and_assoc, List.append_assoc]
    all_goals simp [ancestorsFirstFrom, ih, createdIds]

theorem ancestorsFirstFrom_append_no_create {a : List Event}
    (hnc : ∀ ev ∈ a, isCreateEntity ev = false) (r created : List String)
    (b : List Event) :
    ancestorsFirstFrom r created (a ++ b) = ancestorsFirstFrom r created b := by
  rw [ancestorsFirstFrom_append, ancestorsFirstFrom_no_create r a hnc created,
    createdIds_no_create a hnc]
  simp

theorem entity_exists_no_create (getOk : String → Bool) (cache : List String)
    (workspace_id entity_id : String) :
    ∀ ev ∈ (entity_exists getOk cache workspace_id entity_id).2.2,
      isCreateEntity ev = false := by
  unfold entity_exists
  repeat' split
  all_goals simp [isCreateEntity]

theorem entity_exists_true {getOk : String → Bool} {cache : List String}
    {workspace_id entity_id : String}
    (h : (entity_exists getOk cache workspace_id entity_id).1 = true) :
    entity_id ∈ cache ∨ getOk entity_id = true := by
  by_cases h1 : entity_id ∈ cache
  · exact Or.inl h1
  by_cases h2 : getOk entity_id = true
  · exact Or.inr h2
  · rw [entity_exists_not_found h1 (by revert h2; cases getOk entity_id <;> simp)] at h
    cases h

theorem payload_step_remote (entity : Entity) (workspace_id : String)
    (comps0 : Comps) (s : ImportState) :
    (payload_step entity workspace_id comps0 s).2.1.remote = s.remote :=
  (payload_step_frame entity workspace_id comps0 s).1

theorem payload_step_cache (entity : Entity) (workspace_id : String)
    (comps0 : Comps) (s : ImportState) :
    (payload_step entity workspace_id comps0 s).2.1.created_entities =
      s.created_entities :=
  (payload_step_frame entity workspace_id comps0 s).2.1

theorem populate_assets_frame (entity : Entity) (comp_id : Option String)
    (workspace_id : String) (s : ImportState) :
    (populate_assets entity comp_id workspace_id s).2.1.remote = s.remote ∧
    (populate_assets entity comp_id workspace_id s).2.1.created_entities =
      s.created_entities :=
  ⟨(create_properties_component_frame workspace_id comp_id s).1,
    (create_properties_component_frame workspace_id comp_id s).2.1⟩

theorem populate_assets_no_create (entity : Entity) (comp_id : Option String)
    (workspace_id : String) (s : ImportState) :
    ∀ ev ∈ (populate_assets entity comp_id workspace_id s).2.2,
      isCreateEntity ev = false :=
  create_properties_component_no_create_entity workspace_id comp_id s

theorem create_workspace_frame (workspace_id : String)
    (iottwinmaker_role_arn : Option String) (s : ImportState) :
    (create_workspace workspace_id iottwinmaker_role_arn s).1.remote = s.remote ∧
    (create_workspace workspace_id iottwinmaker_role_arn s).1.created_entities =
      s.created_entities ∧
    (create_workspace workspace_id iottwinmaker_role_arn s).1.ctypes_remote =
      s.ctypes_remote ∧
    (create_workspace workspace_id iottwinmaker_role_arn
      s).1.created_component_types = s.created_component_types := by
  unfold create_workspace
  split
  · exact ⟨rfl, rfl, rfl, rfl⟩
  · exact ⟨rfl, rfl, rfl, rfl⟩

theorem create_workspace_no_create (workspace_id : String)
    (iottwinmaker_role_arn : Option String) (s : ImportState) :
    ∀ ev ∈ (create_workspace workspace_id iottwinmaker_role_arn s).2,
      isCreateEntity ev = false := by
  unfold create_workspace
  split
  all_goals simp [isCreateEntity]

theorem get_parent_from_input_id {input_entities : List Entity} {parent_id : String}
    {e : Entity} (h : get_parent_from_input input_entities parent_id = some e) :
    e.entity_id = parent_id := by
  induction input_entities with
  | nil => cases h
  | cons a rest ih =>
    rw [get_parent_from_input] at h
    by_cases hq : parent_id = a.entity_id
    · rw [if_pos hq] at h
      have := Option.some_injective _ h
      rw [← this]
      exact hq.symm
    · rw [if_neg hq] at h
      exact ih h


theorem create_iottwinmaker_entity_self_remote
    (fuel : Nat) (input_entities : List Entity) (entity : Entity)
    (workspace_id : String) (comps0 : Comps) (check_active : Bool)
    (s : ImportState) (p : ImportState × List Event)
    (h : create_iottwinmaker_entity fuel input_entities entity workspace_id comps0
      check_active s = some p)
    (hc : ∀ x ∈ s.created_entities, x ∈ s.remote) :
    entity.entity_id ∈ p.1.remote := by
  cases fuel with
  | zero => cases h
  | succ n =>
    rcases hn : entity.parent_entity_id with _ | parent_id <;>
      simp only [create_iottwinmaker_entity, hn] at h <;>
      repeat' split at h
    all_goals first
      | exact Option.noConfusion h
      | (injection h with h2; subst h2)
    all_goals first
      | exact List.mem_cons_self _ _
      | (rename_i hex
         rcases entity_exists_true hex with hin | hin
         · exact hc _ hin
         · simpa using hin)


theorem entity_exists_false {getOk : String → Bool} {cache : List String}
    {workspace_id entity_id : String}
    (h : ¬(entity_exists getOk cache workspace_id entity_id).1 = true) :
    entity_exists getOk cache workspace_id entity_id =
      (false, cache, [Event.getEntity entity_id]) := by
  by_cases h1 : entity_id ∈ cache
  · rw [entity_exists_cached h1] at h
    exact absurd rfl h
  by_cases h2 : getOk entity_id = true
  · rw [entity_exists_remote_hit h1 h2] at h
    exact absurd rfl h
  · exact entity_exists_not_found h1 (by revert h2; cases getOk entity_id <;> simp)

theorem create_iottwinmaker_entity_ancestors :
    ∀ (fuel : Nat) (input_entities : List Entity) (entity : Entity)
      (workspace_id : String) (comps0 : Comps) (check_active : Bool)
      (s : ImportState) (p : ImportState × List Event) (r created : List String),
      create_iottwinmaker_entity fuel input_entities entity workspace_id comps0
        check_active s = some p →
      (∀ x ∈ s.remote, x ∈ r ∨ x ∈ created) →
      (∀ x ∈ s.created_entities, x ∈ s.remote) →
      ancestorsFirstFrom r created p.2 = true ∧
      (∀ x ∈ p.1.remote, x ∈ r ∨ x ∈ created ∨ x ∈ createdIds p.2) := by
  intro fuel
  induction fuel with
  | zero => intro _ _ _ _ _ _ p r created h _ _; cases h
  | succ n ih =>
    intro input_entities entity workspace_id comps0 check_active s p r created h hsub hc
    rcases hn : entity.parent_entity_id with _ | parent_id <;>
      simp only [create_iottwinmaker_entity, hn] at h
    · -- record with no parent: attaches under the implicit root
      split at h
      case isTrue hex =>
        injection h with h2; subst h2
        refine ⟨ancestorsFirstFrom_no_create r _ (entity_exists_no_create _ _ _ _) _,
          fun x hx => ?_⟩
        rcases hsub x hx with h1 | h1
        exacts [Or.inl h1, Or.inr (Or.inl h1)]
      case isFalse hnex =>
        injection h with h2; subst h2
        constructor
        · rw [List.append_assoc,
            ancestorsFirstFrom_append_no_create (entity_exists_no_create _ _ _ _),
            ancestorsFirstFrom_append_no_create (payload_step_no_create _ _ _ _)]
          cases check_active <;>
            simp [create_entity_api, ancestorsFirstFrom, entity_ntt]
        · intro x hx
          rcases List.mem_cons.mp hx with heq | hx2
          · subst heq
            right; right
            rw [createdIds_append]
            refine List.mem_append_right _ ?_
            cases check_active <;> simp [create_entity_api, createdIds, entity_ntt]
          · have hx3 : x ∈ s.remote := by
              rw [payload_step_remote] at hx2
              exact hx2
            rcases hsub x hx3 with h1 | h1
            exacts [Or.inl h1, Or.inr (Or.inl h1)]
    · -- record with a parent reference
      split at h
      case isTrue hex =>
        injection h with h2; subst h2
        refine ⟨ancestorsFirstFrom_no_create r _ (entity_exists_no_create _ _ _ _) _,
          fun x hx => ?_⟩
        rcases hsub x hx with h1 | h1
        exacts [Or.inl h1, Or.inr (Or.inl h1)]
      case isFalse hnex =>
        split at h
        case isTrue hr3 =>
          -- the parent already exists: created directly under it
          injection h with h2; subst h2
          have hpr : parent_id ∈ r ∨ parent_id ∈ created := by
            rcases entity_exists_true hr3 with hin | hin
            · rw [payload_step_cache] at hin
              rw [entity_exists_false hnex] at hin
              exact hsub _ (hc _ hin)
            · have hin2 : parent_id ∈
                  (payload_step entity workspace_id comps0
                    { s with created_entities :=
                        (entity_exists (fun i => s.remote.contains i)
                          s.created_entities workspace_id
                          entity.entity_id).2.1 }).2.1.remote := by simpa using hin
              rw [payload_step_remote] at hin2
              exact hsub _ hin2
          constructor
          · rw [List.append_assoc, List.append_assoc,
              ancestorsFirstFrom_append_no_create (entity_exists_no_create _ _ _ _),
              ancestorsFirstFrom_append_no_create (payload_step_no_create _ _ _ _),
              ancestorsFirstFrom_append_no_create (entity_exists_no_create _ _ _ _)]
            rcases hpr with h1 | h1 <;>
              cases check_active <;>
                simp [create_entity_api, ancestorsFirstFrom, entity_ntt, h1]
          · intro x hx
            rcases List.mem_cons.mp hx with heq | hx2
            · subst heq
              right; right
              rw [createdIds_append]
              refine List.mem_append_right _ ?_
              cases check_active <;> simp [create_entity_api, createdIds, entity_ntt]
            · have hx3 : x ∈ s.remote := by
                rw [payload_step_remote] at hx2
                exact hx2
              rcases hsub x hx3 with h1 | h1
              exacts [Or.inl h1, Or.inr (Or.inl h1)]
        case isFalse hr3f =>
          split at h
          next parent hgp =>
            -- parent record found in the input: recurse first
            split at h
            next heqrec => exact Option.noConfusion h
            next s4 evR heqrec =>
              injection h with h2; subst h2
              have inv3 := StepInv.trans (StepInv.trans
                (entity_exists_StepInv s workspace_id entity.entity_id)
                (payload_step_StepInv entity workspace_id comps0 _))
                (entity_exists_StepInv _ workspace_id parent_id)
              have hc3 := inv3.cache_sound hc
              have hsub3 : ∀ x ∈ (payload_step entity workspace_id comps0
                  { s with created_entities :=
                      (entity_exists (fun i => s.remote.contains i)
                        s.created_entities workspace_id
                        entity.entity_id).2.1 }).2.1.remote,
                  x ∈ r ∨ x ∈ created := by
                intro x hx
                rw [payload_step_remote] at hx
                exact hsub x hx
              obtain ⟨ihaff, ihrem⟩ := ih input_entities parent workspace_id _ true _
                (s4, evR) r created heqrec hsub3 hc3
              have hpidmem : parent_id ∈ s4.remote := by
                have hself := create_iottwinmaker_entity_self_remote n input_entities
                  parent workspace_id _ true _ (s4, evR) heqrec hc3
                rwa [get_parent_from_input_id hgp] at hself
              have hpid3 := ihrem parent_id hpidmem
              constructor
              · rw [List.append_assoc, List.append_assoc, List.append_assoc,
                  ancestorsFirstFrom_append_no_create (entity_exists_no_create _ _ _ _),
                  ancestorsFirstFrom_append_no_create (payload_step_no_create _ _ _ _),
                  ancestorsFirstFrom_append_no_create (entity_exists_no_create _ _ _ _),
                  ancestorsFirstFrom_append, ihaff]
                rcases hpid3 with h1 | h1 | h1 <;>
                  cases check_active <;>
                    simp [create_entity_api, ancestorsFirstFrom, entity_ntt, h1]
              · intro x hx
                rcases List.mem_cons.mp hx with heq | hx2
                · subst heq
                  right; right
                  rw [createdIds_append]
                  refine List.mem_append_right _ ?_
                  cases check_active <;>
                    simp [create_entity_api, createdIds, entity_ntt]
                · rcases ihrem x hx2 with h1 | h1 | h1
                  · exact Or.inl h1
                  · exact Or.inr (Or.inl h1)
                  · right; right
                    rw [createdIds_append, createdIds_append]
                    exact List.mem_append_left _ (List.mem_append_right _ h1)
          next hgp =>
            -- no parent record: synthesize the root placeholder first
            injection h with h2; subst h2
            constructor
            · rw [List.append_assoc, List.append_assoc, List.append_assoc,
                ancestorsFirstFrom_append_no_create (entity_exists_no_create _ _ _ _),
                ancestorsFirstFrom_append_no_create (payload_step_no_create _ _ _ _),
                ancestorsFirstFrom_append_no_create (entity_exists_no_create _ _ _ _)]
              cases check_active <;>
                simp [create_entity_api, ancestorsFirstFrom, create_root, entity_ntt]
            · intro x hx
              rcases List.mem_cons.mp hx with heq | hx2
              · subst heq
                right; right
                rw [createdIds_append]
                refine List.mem_append_right _ ?_
                cases check_active <;> simp [create_entity_api, createdIds, entity_ntt]
              · rcases List.mem_cons.mp hx2 with heq | hx3
                · subst heq
                  right; right
                  rw [createdIds_append, createdIds_append]
                  refine List.mem_append_left _ (List.mem_append_right _ ?_)
                  simp [create_entity_api, createdIds, create_root]
                · have hx4 : x ∈ s.remote := by
                    rw [payload_step_remote] at hx3
                    exact hx3
                  rcases hsub x hx4 with h1 | h1
                  exacts [Or.inl h1, Or.inr (Or.inl h1)]


theorem process_records_from_ancestors (fuel : Nat) (input_entities : List Entity)
    (workspace_id : String) (comp_id : Option String) :
    ∀ (todo : List Entity) (s : ImportState) (p : ImportState × List Event)
      (r created : List String),
      process_records_from fuel input_entities workspace_id comp_id todo s = some p →
      (∀ x ∈ s.remote, x ∈ r ∨ x ∈ created) →
      (∀ x ∈ s.created_entities, x ∈ s.remote) →
      ancestorsFirstFrom r created p.2 = true ∧
      (∀ x ∈ p.1.remote, x ∈ r ∨ x ∈ created ∨ x ∈ createdIds p.2) := by
  intro todo
  induction todo with
  | nil =>
    intro s p r created h hsub hc
    injection h with h2
    subst h2
    exact ⟨rfl, fun x hx => (hsub x hx).imp id Or.inl⟩
  | cons e rest ih =>
    intro s p r created h hsub hc
    simp only [process_records_from] at h
    split at h
    · exact Option.noConfusion h
    next s2 ev2 heq1 =>
      split at h
      · exact Option.noConfusion h
      next s3 ev3 heq2 =>
        injection h with h2
        subst h2
        have hsub1 : ∀ x ∈ (populate_assets e comp_id workspace_id s).2.1.remote,
            x ∈ r ∨ x ∈ created := by
          intro x hx
          rw [(populate_assets_frame e comp_id workspace_id s).1] at hx
          exact hsub x hx
        have hc1 : ∀ x ∈ (populate_assets e comp_id workspace_id
            s).2.1.created_entities,
            x ∈ (populate_assets e comp_id workspace_id s).2.1.remote :=
          (populate_assets_StepInv e comp_id workspace_id s).cache_sound hc
        obtain ⟨aff2, rem2⟩ := create_iottwinmaker_entity_ancestors fuel input_entities
          e workspace_id _ false _ (s2, ev2) r created heq1 hsub1 hc1
        have hc2 : ∀ x ∈ s2.created_entities, x ∈ s2.remote :=
          (create_iottwinmaker_entity_StepInv fuel input_entities e workspace_id _
            false _ (s2, ev2) heq1).cache_sound hc1
        have hsub2 : ∀ x ∈ s2.remote, x ∈ r ∨ x ∈ created ++ createdIds ev2 := by
          intro x hx
          rcases rem2 x hx with h1 | h1 | h1
          · exact Or.inl h1
          · exact Or.inr (List.mem_append_left _ h1)
          · exact Or.inr (List.mem_append_right _ h1)
        obtain ⟨aff3, rem3⟩ := ih s2 (s3, ev3) r (created ++ createdIds ev2) heq2
          hsub2 hc2
        constructor
        · rw [List.append_assoc,
            ancestorsFirstFrom_append_no_create (populate_assets_no_create _ _ _ _),
            ancestorsFirstFrom_append, aff2, aff3]
          rfl
        · intro x hx
          rcases rem3 x hx with h1 | h1 | h1
          · exact Or.inl h1
          · rcases List.mem_append.mp h1 with h2 | h2
            · exact Or.inr (Or.inl h2)
            · right; right
              rw [createdIds_append, createdIds_append]
              exact List.mem_append_left _ (List.mem_append_right _ h2)
          · right; right
            rw [createdIds_append]
            exact List.mem_append_right _ h1

/-- Claim C2: in the sequence of entity-creation calls of one run, no entity
is created before its resolved parent unless that parent already existed
remotely at the start of the run: scanning the trace in order, every
`createEntity` call names a parent that is the implicit root, was remote at
the start, or was itself created earlier in the trace (synthetic placeholders
included, since they are created before their dependent record). -/
theorem entity_creation_respects_parent_order
    (fuel : Nat) (entities : List Entity) (workspace_id : String)
    (comp_id : Option String) (iottwinmaker_role_arn : Option String)
    (s : ImportState)
    (hc : ∀ x ∈ s.created_entities, x ∈ s.remote) :
    ancestorsFirstFrom s.remote []
      (traceOf (create_iottwinmaker_entities fuel entities workspace_id comp_id
        iottwinmaker_role_arn s)) = true := by
  rcases hrun : create_iottwinmaker_entities fuel entities workspace_id comp_id
    iottwinmaker_role_arn s with _ | p
  · rfl
  · simp only [traceOf]
    simp only [create_iottwinmaker_entities] at hrun
    split at hrun
    · exact Option.noConfusion hrun
    next s3 ev3 heq =>
      injection hrun with h2
      subst h2
      rw [List.append_assoc,
        ancestorsFirstFrom_append_no_create (create_workspace_no_create _ _ _),
        ancestorsFirstFrom_append_no_create
          (create_properties_component_no_create_entity _ _ _)]
      simp only [process_records] at heq
      have hfw := create_workspace_frame workspace_id iottwinmaker_role_arn s
      have hfc := create_properties_component_frame workspace_id comp_id
        (create_workspace workspace_id iottwinmaker_role_arn s).1
      have hsub0 : ∀ x ∈ (create_properties_component workspace_id comp_id
          (create_workspace workspace_id iottwinmaker_role_arn s).1).1.remote,
          x ∈ s.remote ∨ x ∈ ([] : List String) := by
        intro x hx
        rw [hfc.1, hfw.1] at hx
        exact Or.inl hx
      have hc0 : ∀ x ∈ (create_properties_component workspace_id comp_id
          (create_workspace workspace_id iottwinmaker_role_arn
            s).1).1.created_entities,
          x ∈ (create_properties_component workspace_id comp_id
            (create_workspace workspace_id iottwinmaker_role_arn s).1).1.remote := by
        intro x hx
        rw [hfc.2.1, hfw.2.1] at hx
        rw [hfc.1, hfw.1]
        exact hc x hx
      exact (process_records_from_ancestors fuel entities workspace_id comp_id
        entities _ (s3, ev3) s.remote [] heq hsub0 hc0).1


/-- Witness for claim C2: the three-record chain run from an empty workspace. -/
theorem entity_creation_respects_parent_order_witness :
    ancestorsFirstFrom emptyState.remote []
      (traceOf (create_iottwinmaker_entities 5 [cRec, bRec, aRec] "w2" (some "jc")
        none emptyState)) = true :=
  entity_creation_respects_parent_order 5 [cRec, bRec, aRec] "w2" (some "jc") none
    emptyState (fun x hx => by cases hx)

/-- Claim C9: over one run, the two caches only grow (the starting cache is a
suffix of the final one), and an id already recorded in the entity cache gets
no further `getEntity` existence check, nor does a recorded component type get
a further `listComponentTypes` call, anywhere in the run's trace.  Since the
statement holds for every starting state, it applies in particular to the
state at the moment an id is first recorded, which is the instant the claim
speaks about. -/
theorem caches_monotone_no_repeat_checks
    (fuel : Nat) (entities : List Entity) (workspace_id : String)
    (comp_id : Option String) (iottwinmaker_role_arn : Option String)
    (s : ImportState)
    (h : (create_iottwinmaker_entities fuel entities workspace_id comp_id
      iottwinmaker_role_arn s).isSome = true) :
    (s.created_entities <:+
      (stateOf (create_iottwinmaker_entities fuel entities workspace_id comp_id
        iottwinmaker_role_arn s)).created_entities) ∧
    (s.created_component_types <:+
      (stateOf (create_iottwinmaker_entities fuel entities workspace_id comp_id
        iottwinmaker_role_arn s)).created_component_types) ∧
    (∀ i ∈ s.created_entities,
      Event.getEntity i ∉ traceOf (create_iottwinmaker_entities fuel entities
        workspace_id comp_id iottwinmaker_role_arn s)) ∧
    (∀ i ∈ s.created_component_types,
      Event.listComponentTypes i ∉ traceOf (create_iottwinmaker_entities fuel
        entities workspace_id comp_id iottwinmaker_role_arn s)) := by
  rcases hrun : create_iottwinmaker_entities fuel entities workspace_id comp_id
    iottwinmaker_role_arn s with _ | p
  · rw [hrun] at h
    cases h
  · have inv := create_iottwinmaker_entities_StepInv fuel entities workspace_id
      comp_id iottwinmaker_role_arn s p hrun
    exact ⟨inv.cache_suffix, inv.ctypes_cache_suffix, inv.no_get_cached,
      inv.no_list_cached⟩

/-- Witness for claim C9: a run started with a pre-seeded entity cache never
checks the seeded id again. -/
theorem caches_monotone_no_repeat_checks_witness :
    Event.getEntity "seed" ∉
      traceOf (create_iottwinmaker_entities 1 [aRec] "w" none none
        { remote := [], created_entities := ["seed"], ctypes_remote := [],
          created_component_types := ["ct0"], workspaces := [] }) :=
  (caches_monotone_no_repeat_checks 1 [aRec] "w" none none
    { remote := [], created_entities := ["seed"], ctypes_remote := [],
      created_component_types := ["ct0"], workspaces := [] } rfl).2.2.1 "seed"
    (by decide)


theorem create_iottwinmaker_entity_noop
    (fuel : Nat) (input_entities : List Entity) (entity : Entity)
    (workspace_id : String) (comps0 : Comps) (check_active : Bool) (s : ImportState)
    (hknown : entity.entity_id ∈ s.created_entities ∨ entity.entity_id ∈ s.remote) :
    ∃ cache2,
      create_iottwinmaker_entity (fuel + 1) input_entities entity workspace_id comps0
        check_active s =
      some ({ s with created_entities := cache2 },
        if entity.entity_id ∈ s.created_entities then []
        else [Event.getEntity entity.entity_id]) := by
  by_cases h1 : entity.entity_id ∈ s.created_entities
  · refine ⟨s.created_entities, ?_⟩
    simp only [create_iottwinmaker_entity, entity_exists_cached h1]
    simp [h1]
  · have h2 : entity.entity_id ∈ s.remote := hknown.resolve_left h1
    have hg : (fun i => s.remote.contains i) entity.entity_id = true := by simpa using h2
    refine ⟨entity.entity_id :: s.created_entities, ?_⟩
    simp only [create_iottwinmaker_entity, entity_exists_remote_hit h1 hg]
    simp [h1]

theorem create_properties_component_noop (workspace_id : String)
    (comp_id : Option String) (s : ImportState)
    (hok : ∀ c, comp_id = some c → ¬c.isEmpty = true →
      c ∈ s.created_component_types ∨ c ∈ s.ctypes_remote) :
    ∃ cc ev,
      create_properties_component workspace_id comp_id s =
        ({ s with created_component_types := cc }, ev) ∧
      ev.all (fun e => !isMutation e) = true := by
  match comp_id with
  | none => exact ⟨s.created_component_types, [], rfl, rfl⟩
  | some cid =>
    by_cases h1 : s.created_component_types.contains cid = true
    · exact ⟨s.created_component_types, [],
        by rw [create_properties_component, if_pos h1], rfl⟩
    by_cases h2 : cid.isEmpty = true
    · exact ⟨s.created_component_types, [],
        by rw [create_properties_component, if_neg h1, if_pos h2], rfl⟩
    · have h3 : s.ctypes_remote.contains cid = true := by
        rcases hok cid rfl h2 with hin | hin
        · exact absurd (by simpa using hin) h1
        · simpa using hin
      exact ⟨cid :: s.created_component_types, [Event.listComponentTypes cid],
        by rw [create_properties_component, if_neg h1, if_neg h2, if_pos h3], rfl⟩

theorem create_workspace_noop (workspace_id : String)
    (iottwinmaker_role_arn : Option String) (s : ImportState)
    (hws : workspace_id ∈ s.workspaces) :
    create_workspace workspace_id iottwinmaker_role_arn s =
      (s, [Event.listWorkspaces]) := by
  rw [create_workspace]
  simp [hws]

theorem create_workspace_ws_mem (workspace_id : String)
    (iottwinmaker_role_arn : Option String) (s : ImportState) :
    workspace_id ∈
      (create_workspace workspace_id iottwinmaker_role_arn s).1.workspaces := by
  by_cases h : workspace_id ∈ s.workspaces
  · rw [create_workspace_noop workspace_id iottwinmaker_role_arn s h]
    exact h
  · rw [create_workspace]
    rw [if_neg fun hc => h (by simpa using hc)]
    exact List.mem_cons_self _ _

theorem create_properties_component_ensures (workspace_id : String) (cid : String)
    (s : ImportState)
    (hsound : ∀ x ∈ s.created_component_types, x ∈ s.ctypes_remote)
    (hne : ¬cid.isEmpty = true) :
    cid ∈ (create_properties_component workspace_id (some cid) s).1.ctypes_remote := by
  rw [create_properties_component]
  by_cases h1 : s.created_component_types.contains cid
  · simp only [h1, if_true]
    exact hsound _ (by simpa using h1)
  by_cases h3 : s.ctypes_remote.contains cid
  · simp only [h1, h3, hne, if_true, if_false, Bool.false_eq_true]
    simpa using h3
  · simp only [h1, h3, hne, if_false, Bool.false_eq_true]
    exact List.mem_cons_self _ _

theorem process_records_from_all_remote (fuel : Nat) (input_entities : List Entity)
    (workspace_id : String) (comp_id : Option String) :
    ∀ (todo : List Entity) (s : ImportState) (p : ImportState × List Event),
      process_records_from fuel input_entities workspace_id comp_id todo s = some p →
      (∀ x ∈ s.created_entities, x ∈ s.remote) →
      ∀ e ∈ todo, e.entity_id ∈ p.1.remote := by
  intro todo
  induction todo with
  | nil => intro s p h hc e he; cases he
  | cons e rest ih =>
    intro s p h hc e2 he2
    simp only [process_records_from] at h
    split at h
    · exact Option.noConfusion h
    next s2 ev2 heq1 =>
      split at h
      · exact Option.noConfusion h
      next s3 ev3 heq2 =>
        injection h with h2
        subst h2
        have hc1 := (populate_assets_StepInv e comp_id workspace_id s).cache_sound hc
        have hc2 := (create_iottwinmaker_entity_StepInv fuel input_entities e
          workspace_id _ false _ (s2, ev2) heq1).cache_sound hc1
        rcases List.mem_cons.mp he2 with heq | hmem
        · subst heq
          have hself := create_iottwinmaker_entity_self_remote fuel input_entities e2
            workspace_id _ false _ (s2, ev2) heq1 hc1
          exact (process_records_from_StepInv fuel input_entities workspace_id comp_id
            rest s2 (s3, ev3) heq2).remote_mono _ hself
        · exact ih s2 (s3, ev3) heq2 hc2 e2 hmem

theorem process_records_from_fuel_pos {fuel : Nat} {input_entities : List Entity}
    {workspace_id : String} {comp_id : Option String} {e : Entity}
    {rest : List Entity} {s : ImportState} {p : ImportState × List Event}
    (h : process_records_from fuel input_entities workspace_id comp_id (e :: rest)
      s = some p) :
    0 < fuel := by
  cases fuel with
  | zero =>
    simp only [process_records_from, create_iottwinmaker_entity] at h
    exact Option.noConfusion h
  | succ n => exact Nat.succ_pos n


theorem process_records_from_noop (n : Nat) (input_entities : List Entity)
    (workspace_id : String) (comp_id : Option String) :
    ∀ (todo : List Entity) (s : ImportState),
      (∀ e ∈ todo, e.entity_id ∈ s.remote) →
      (∀ c, comp_id = some c → ¬c.isEmpty = true → c ∈ s.ctypes_remote) →
      ∃ p, process_records_from (n + 1) input_entities workspace_id comp_id todo s =
          some p ∧
        p.2.all (fun e => !isMutation e) = true ∧
        p.1.remote = s.remote ∧ p.1.ctypes_remote = s.ctypes_remote := by
  intro todo
  induction todo with
  | nil =>
    intro s _ _
    exact ⟨(s, []), rfl, rfl, rfl, rfl⟩
  | cons e rest ih =>
    intro s hrem hct
    obtain ⟨cc, ev, hcpc, hevall⟩ := create_properties_component_noop workspace_id
      comp_id s (fun c hc hn => Or.inr (hct c hc hn))
    have hpa : populate_assets e comp_id workspace_id s =
        ({ componentTypeId := comp_id, properties := e.properties },
          { s with created_component_types := cc }, ev) := by
      simp only [populate_assets, hcpc]
    obtain ⟨cache2, hres⟩ := create_iottwinmaker_entity_noop n input_entities e
      workspace_id { componentTypeId := comp_id, properties := e.properties } false
      { s with created_component_types := cc }
      (Or.inr (hrem e (List.mem_cons_self _ _)))
    obtain ⟨⟨s3, ev3⟩, hp3, hall3, hrem3, hct3⟩ := ih
      { { s with created_component_types := cc } with created_entities := cache2 }
      (fun e2 he2 => hrem e2 (List.mem_cons_of_mem _ he2)) hct
    refine ⟨(s3,
      (ev ++ (if e.entity_id ∈
          ({ s with created_component_types := cc } : ImportState).created_entities
        then ([] : List Event) else [Event.getEntity e.entity_id])) ++ ev3),
      ?_, ?_, ?_, ?_⟩
    · simp only [process_records_from, hpa, hres, hp3]
    · have hite : (if e.entity_id ∈
          ({ s with created_component_types := cc } : ImportState).created_entities
          then ([] : List Event)
          else [Event.getEntity e.entity_id]).all (fun e2 => !isMutation e2) = true := by
        split <;> rfl
      simp only [List.all_append, hevall, hite, hall3, Bool.and_self]
    · exact hrem3
    · exact hct3

theorem process_records_from_noop2 (fuel : Nat) (input_entities : List Entity)
    (workspace_id : String) (comp_id : Option String) (todo : List Entity)
    (s : ImportState)
    (hrem : ∀ e ∈ todo, e.entity_id ∈ s.remote)
    (hct : ∀ c, comp_id = some c → ¬c.isEmpty = true → c ∈ s.ctypes_remote)
    (hf : 0 < fuel ∨ todo = []) :
    ∃ p, process_records_from fuel input_entities workspace_id comp_id todo s =
        some p ∧
      p.2.all (fun e => !isMutation e) = true ∧
      p.1.remote = s.remote ∧ p.1.ctypes_remote = s.ctypes_remote := by
  rcases hf with hf | rfl
  · cases fuel with
    | zero => exact absurd hf (Nat.lt_irrefl 0)
    | succ n =>
      exact process_records_from_noop n input_entities workspace_id comp_id todo s
        hrem hct
  · exact ⟨(s, []), rfl, rfl, rfl, rfl⟩

/-- Claim C3: running the importer a second time over the same input set, as a
fresh process against the workspace state the first run left behind, succeeds
and issues zero creation calls — its whole trace is free of `createEntity`,
`createComponentType`, `createWorkspace` (and bucket-creation) events: every
existence check and list call succeeds, and every resolver invocation is a
no-op. -/
theorem second_run_issues_no_creations
    (fuel : Nat) (entities : List Entity) (workspace_id : String)
    (comp_id : Option String) (iottwinmaker_role_arn : Option String)
    (s : ImportState)
    (hcache : ∀ x ∈ s.created_entities, x ∈ s.remote)
    (hctcache : ∀ x ∈ s.created_component_types, x ∈ s.ctypes_remote)
    (h1 : (create_iottwinmaker_entities fuel entities workspace_id comp_id
      iottwinmaker_role_arn s).isSome = true) :
    (create_iottwinmaker_entities fuel entities workspace_id comp_id
      iottwinmaker_role_arn
      (freshProcessState (stateOf (create_iottwinmaker_entities fuel entities
        workspace_id comp_id iottwinmaker_role_arn s)))).isSome = true ∧
    (traceOf (create_iottwinmaker_entities fuel entities workspace_id comp_id
      iottwinmaker_role_arn
      (freshProcessState (stateOf (create_iottwinmaker_entities fuel entities
        workspace_id comp_id iottwinmaker_role_arn s))))).all
      (fun ev => !isMutation ev) = true := by
  rcases hrun : create_iottwinmaker_entities fuel entities workspace_id comp_id
    iottwinmaker_role_arn s with _ | p
  · rw [hrun] at h1
    cases h1
  -- decompose the first run
  have hrun2 := hrun
  simp only [create_iottwinmaker_entities] at hrun2
  split at hrun2
  · exact Option.noConfusion hrun2
  next s3 ev3 heqP =>
    injection hrun2 with hp2
    subst hp2
    simp only [process_records] at heqP
    have hfw := create_workspace_frame workspace_id iottwinmaker_role_arn s
    have hfc := create_properties_component_frame workspace_id comp_id
      (create_workspace workspace_id iottwinmaker_role_arn s).1
    -- facts carried out of the first run
    have hcsound : ∀ x ∈ (create_properties_component workspace_id comp_id
        (create_workspace workspace_id iottwinmaker_role_arn
          s).1).1.created_entities,
        x ∈ (create_properties_component workspace_id comp_id
          (create_workspace workspace_id iottwinmaker_role_arn s).1).1.remote := by
      intro x hx
      rw [hfc.2.1, hfw.2.1] at hx
      rw [hfc.1, hfw.1]
      exact hcache x hx
    have hAllRemote : ∀ e ∈ entities, e.entity_id ∈ s3.remote :=
      process_records_from_all_remote fuel entities workspace_id comp_id entities _
        (s3, ev3) heqP hcsound
    have hinvP := process_records_from_StepInv fuel entities workspace_id comp_id
      entities _ (s3, ev3) heqP
    have hws : workspace_id ∈ s3.workspaces := by
      refine hinvP.workspaces_mono workspace_id ?_
      rw [hfc.2.2]
      exact create_workspace_ws_mem workspace_id iottwinmaker_role_arn s
    have hctRemote : ∀ c, comp_id = some c → ¬c.isEmpty = true →
        c ∈ s3.ctypes_remote := by
      intro c hc hn
      subst hc
      refine hinvP.ctypes_remote_mono c ?_
      refine create_properties_component_ensures workspace_id c _ ?_ hn
      intro x hx
      rw [hfw.2.2.2] at hx
      rw [hfw.2.2.1]
      exact hctcache x hx
    have hfuel : 0 < fuel ∨ entities = [] := by
      cases entities with
      | nil => exact Or.inr rfl
      | cons e0 erest => exact Or.inl (process_records_from_fuel_pos heqP)
    -- second run pieces
    have hwsF : workspace_id ∈ (freshProcessState s3).workspaces := hws
    have hw2 := create_workspace_noop workspace_id iottwinmaker_role_arn
      (freshProcessState s3) hwsF
    obtain ⟨cc2, ev2, hcpc2, hev2all⟩ := create_properties_component_noop
      workspace_id comp_id (freshProcessState s3)
      (fun c hc hn => Or.inr (hctRemote c hc hn))
    obtain ⟨⟨sP, evP⟩, hP, hPall, hPrem, hPct⟩ := process_records_from_noop2 fuel
      entities workspace_id comp_id entities
      { (freshProcessState s3) with created_component_types := cc2 }
      hAllRemote hctRemote hfuel
    constructor
    · simp only [create_iottwinmaker_entities, stateOf, process_records, hw2,
        hcpc2, hP]
      rfl
    · simp only [create_iottwinmaker_entities, stateOf, process_records, hw2,
        hcpc2, hP, traceOf]
      simp only [List.all_append, hev2all, hPall, Bool.and_self]
      rfl


/-- Witness for claim C3: re-running the chain import against the workspace
state of the first run issues no creation calls. -/
theorem second_run_issues_no_creations_witness :
    (traceOf (create_iottwinmaker_entities 5 [cRec, bRec, aRec] "w3" (some "jc")
      none
      (freshProcessState (stateOf (create_iottwinmaker_entities 5
        [cRec, bRec, aRec] "w3" (some "jc") none emptyState))))).all
      (fun ev => !isMutation ev) = true :=
  (second_run_issues_no_creations 5 [cRec, bRec, aRec] "w3" (some "jc") none
    emptyState (fun x hx => by cases hx) (fun x hx => by cases hx) rfl).2

end TmImporter
